import Mathlib

/-!
Shallow embedding of `src/hotdoc_c_extension/c_comment_scanner/scannermodule.c`.

The C file defines one CPython (Python 2) extension function,
`scanner_get_comments`, exposed as `get_comments` through the method table
`ScannerMethods` registered by `initc_comment_scanner`.  The body is:

    if (!PyArg_ParseTuple(args, "s", &filename))
      return NULL;
    list = PyList_New (0);
    scan_filename (filename, list);
    Py_INCREF (list);
    return list;

We model Python argument values, a heap of reference-counted objects, and the
opaque collaborator `scan_filename` as an arbitrary function from a filename
and the current list contents to new list contents.  `PyList_New` may fail
(return NULL) in CPython, so the embedding carries a flag saying whether the
allocation succeeds; the C code performs no NULL check, which the embedding
reflects by letting the null pointer flow into `scan_filename` and
`Py_INCREF` when allocation fails.  An event trace records every allocation,
every invocation of `scan_filename` (with the exact filename string and list
pointer passed), and every `Py_INCREF`.
-/

namespace CScanner

/-- Python values as they can appear in the argument tuple of a call. -/
inductive PyVal
  | vstr (s : String)
  | vint (n : Int)
  | vnone
  | vobj (tag : Nat)
deriving DecidableEq, Repr

/-- Payload of a heap-allocated Python object.  The module only ever
allocates string lists, but a pre-existing heap may hold anything. -/
inductive PyHeapVal
  | listVal (xs : List String)
  | strVal (s : String)
  | otherVal (tag : Nat)
deriving DecidableEq, Repr

/-- A heap object: a reference count together with its payload. -/
structure PyHeapObj where
  refcount : Nat
  val : PyHeapVal
deriving DecidableEq, Repr

/-- The heap: objects addressed by their index; allocation appends. -/
structure Heap where
  data : List PyHeapObj
deriving DecidableEq, Repr

/-- Look an address up in the heap. -/
def Heap.lookup (h : Heap) (a : Nat) : Option PyHeapObj :=
  h.data[a]?

/-- Apply `f` to the element at index `i`, leaving everything else alone. -/
def listModify (f : α → α) : Nat → List α → List α
  | _, [] => []
  | 0, o :: rest => f o :: rest
  | n + 1, o :: rest => o :: listModify f n rest

/-- Apply `f` to the object at address `a`. -/
def Heap.modify (h : Heap) (a : Nat) (f : PyHeapObj → PyHeapObj) : Heap :=
  ⟨listModify f a h.data⟩

/-- `PyArg_ParseTuple(args, "s", &filename)`: succeeds exactly when the
argument tuple is a single string, yielding that very string. -/
def pyArg_ParseTuple_s : List PyVal → Option String
  | [PyVal.vstr s] => some s
  | _ => none

/-- `PyList_New(0)` on success: appends a fresh empty list with reference
count 1 (a new reference owned by the caller) and returns its address. -/
def pyList_New (h : Heap) : Nat × Heap :=
  (h.data.length, ⟨h.data ++ [⟨1, PyHeapVal.listVal []⟩]⟩)

/-- The opaque collaborator `scan_filename(filename, list)`: its behaviour is
an arbitrary function `scanF` from the filename and the current contents of
the list to the new contents.  It mutates the list object in place and
touches nothing else. -/
def scan_filename (scanF : String → List String → List String)
    (filename : String) (a : Nat) (h : Heap) : Heap :=
  h.modify a (fun o =>
    match o.val with
    | PyHeapVal.listVal xs => ⟨o.refcount, PyHeapVal.listVal (scanF filename xs)⟩
    | v => ⟨o.refcount, v⟩)

/-- `Py_INCREF(list)`: increment the reference count at `a`. -/
def py_INCREF (a : Nat) (h : Heap) : Heap :=
  h.modify a (fun o => ⟨o.refcount + 1, o.val⟩)

/-- Observable events of one call: list allocations (successful or failed),
invocations of `scan_filename` with the exact filename and list pointer
passed (`none` is the NULL pointer), and `Py_INCREF` calls. -/
inductive Event
  | evAllocOk (a : Nat)
  | evAllocFail
  | evScan (filename : String) (listPtr : Option Nat)
  | evIncref (listPtr : Option Nat)
deriving DecidableEq, Repr

/-- How a call to the adapter ends: `typeError` is the NULL return after
`PyArg_ParseTuple` failed (a Python TypeError is pending); `ok a` returns
the object at address `a`; `nullDeref` is the crash that dereferencing the
NULL result of a failed `PyList_New` causes. -/
inductive Outcome
  | typeError
  | ok (a : Nat)
  | nullDeref
deriving DecidableEq, Repr

/-- Result of one call: outcome, final heap, event trace. -/
structure CallResult where
  outcome : Outcome
  heap : Heap
  trace : List Event
deriving DecidableEq, Repr

/-- `scanner_get_comments(self, args)`, line by line from the C source.
`scanF` is the behaviour of the opaque `scan_filename`; `allocOk` says
whether `PyList_New(0)` succeeds.  On parse failure the function returns
NULL at once: nothing is allocated, nothing is scanned.  On success the
fresh list is handed to `scan_filename`, `Py_INCREF`ed, and returned; no
check is made on the allocation, so on allocation failure the NULL pointer
reaches both `scan_filename` and `Py_INCREF`. -/
def scanner_get_comments (scanF : String → List String → List String)
    (allocOk : Bool) (args : List PyVal) (h : Heap) : CallResult :=
  match pyArg_ParseTuple_s args with
  | none => ⟨Outcome.typeError, h, []⟩
  | some filename =>
    if allocOk then
      let p := pyList_New h
      let h2 := scan_filename scanF filename p.1 p.2
      let h3 := py_INCREF p.1 h2
      ⟨Outcome.ok p.1, h3,
        [Event.evAllocOk p.1, Event.evScan filename (some p.1),
         Event.evIncref (some p.1)]⟩
    else
      ⟨Outcome.nullDeref, h,
        [Event.evAllocFail, Event.evScan filename none, Event.evIncref none]⟩

/-- The comment list a finished call hands to its caller: the contents of
the returned list object, if the call returned a list. -/
def returnedComments (r : CallResult) : Option (List String) :=
  match r.outcome with
  | Outcome.ok a =>
    match r.heap.lookup a with
    | some ⟨_, PyHeapVal.listVal xs⟩ => some xs
    | _ => none
  | _ => none

/-- Tag naming the one C function the method table points at. -/
inductive CFun
  | fnScannerGetComments
deriving DecidableEq, Repr

/-- One `PyMethodDef` entry; `none` fields are the NULLs of the sentinel. -/
structure PyMethodDef where
  ml_name : Option String
  ml_meth : Option CFun
  ml_flags : Nat
  ml_doc : Option String
deriving DecidableEq, Repr

/-- `METH_VARARGS` flag value. -/
def METH_VARARGS : Nat := 1

/-- The method table `ScannerMethods`, `{NULL, NULL, 0, NULL}`-terminated. -/
def ScannerMethods : List PyMethodDef :=
  [⟨some "get_comments", some CFun.fnScannerGetComments, METH_VARARGS,
    some "Get comments from a filename."⟩,
   ⟨none, none, 0, none⟩]

/-- The entries a method table exposes: CPython walks it up to the first
entry whose `ml_name` is NULL. -/
def exposedMethods (tbl : List PyMethodDef) : List PyMethodDef :=
  tbl.takeWhile (fun m => m.ml_name.isSome)

/-- A registered module: its name and its method table. -/
structure PyModule where
  name : String
  methods : List PyMethodDef
deriving DecidableEq, Repr

/-- `initc_comment_scanner`: `Py_InitModule("c_comment_scanner",
ScannerMethods)`. -/
def initc_comment_scanner : PyModule :=
  ⟨"c_comment_scanner", ScannerMethods⟩

/-- Interpretation of the function tags as the embedded functions. -/
def applyCFun : CFun →
    (String → List String → List String) → Bool → List PyVal → Heap → CallResult
  | CFun.fnScannerGetComments => scanner_get_comments

/-! Helper lemmas about heap access. -/

theorem getQ_length_none (l : List α) : l[l.length]? = none := by
  induction l with
  | nil => rfl
  | cons x xs ih => simp

theorem getQ_append_self (l : List α) (o : α) : (l ++ [o])[l.length]? = some o := by
  induction l with
  | nil => rfl
  | cons x xs ih => simp

theorem getQ_append_lt (l l₂ : List α) (a : Nat) (ha : a < l.length) :
    (l ++ l₂)[a]? = l[a]? := by
  induction l generalizing a with
  | nil => exact absurd ha (by simp)
  | cons x xs ih =>
    cases a with
    | zero => simp
    | succ n => simpa using ih n (by simpa using ha)

theorem listModify_append_self (f : α → α) (l : List α) (o : α) :
    listModify f l.length (l ++ [o]) = l ++ [f o] := by
  induction l with
  | nil => rfl
  | cons x xs ih => simpa [listModify] using ih

/-- The whole success path at once: with a one-string argument tuple and a
successful allocation, the call returns the address just past the old heap,
the final heap is the old heap extended with a list holding exactly
`scanF s []` at reference count 2, and the trace shows the allocation, the
scan of that very list, and the increment, in order. -/
theorem scanner_success (scanF : String → List String → List String)
    (s : String) (h : Heap) :
    scanner_get_comments scanF true [PyVal.vstr s] h =
      ⟨Outcome.ok h.data.length,
       ⟨h.data ++ [⟨2, PyHeapVal.listVal (scanF s [])⟩]⟩,
       [Event.evAllocOk h.data.length, Event.evScan s (some h.data.length),
        Event.evIncref (some h.data.length)]⟩ := by
  show (⟨Outcome.ok h.data.length,
      py_INCREF h.data.length
        (scan_filename scanF s h.data.length ⟨h.data ++ [⟨1, PyHeapVal.listVal []⟩]⟩),
      _⟩ : CallResult) = _
  have h1 : scan_filename scanF s h.data.length ⟨h.data ++ [⟨1, PyHeapVal.listVal []⟩]⟩ =
      ⟨h.data ++ [⟨1, PyHeapVal.listVal (scanF s [])⟩]⟩ := by
    show Heap.mk (listModify _ h.data.length (h.data ++ [⟨1, PyHeapVal.listVal []⟩])) = _
    rw [listModify_append_self]
  rw [h1]
  have h2 : py_INCREF h.data.length ⟨h.data ++ [⟨1, PyHeapVal.listVal (scanF s [])⟩]⟩ =
      ⟨h.data ++ [⟨2, PyHeapVal.listVal (scanF s [])⟩]⟩ := by
    show Heap.mk (listModify _ h.data.length (h.data ++ [⟨1, PyHeapVal.listVal (scanF s [])⟩])) = _
    rw [listModify_append_self]
  rw [h2]
  rfl

/-- Parse failure characterised: the `"s"` format fails exactly when the
argument tuple is not a single string. -/
theorem parse_none_iff (args : List PyVal) :
    pyArg_ParseTuple_s args = none ↔ ¬ ∃ s, args = [PyVal.vstr s] := by
  constructor
  · rintro hp ⟨s, rfl⟩
    simp [pyArg_ParseTuple_s] at hp
  · intro hne
    match args with
    | [] => rfl
    | [PyVal.vstr s] => exact absurd ⟨s, rfl⟩ hne
    | [PyVal.vint n] => rfl
    | [PyVal.vnone] => rfl
    | [PyVal.vobj t] => rfl
    | a :: b :: rest =>
      show (match a :: b :: rest with
        | [PyVal.vstr s] => some s
        | _ => none) = none
      rcases a <;> rfl

/-- Parse success characterised: the `"s"` format yields `f` exactly when
the argument tuple is the single string `f`. -/
theorem parse_some_eq (args : List PyVal) (f : String)
    (hp : pyArg_ParseTuple_s args = some f) : args = [PyVal.vstr f] := by
  rcases args with _ | ⟨a, rest⟩
  · exact Option.noConfusion hp
  · rcases rest with _ | ⟨b, rest⟩
    · cases a with
      | vstr s => simp [pyArg_ParseTuple_s] at hp; rw [hp]
      | vint n => exact Option.noConfusion hp
      | vnone => exact Option.noConfusion hp
      | vobj t => exact Option.noConfusion hp
    · have hnone : pyArg_ParseTuple_s (a :: b :: rest) = none := by
        cases a <;> rfl
      rw [hnone] at hp
      exact Option.noConfusion hp

/-! The claims. -/

/-- C1: a call whose argument tuple is not exactly one string signals the
argument-type error (NULL return with the parse error pending) and aborts
before any scanning: the heap is unchanged, so no list is allocated, and
the trace is empty, so `scan_filename` is never invoked. -/
theorem c1_bad_args_no_scan (scanF : String → List String → List String)
    (allocOk : Bool) (args : List PyVal) (h : Heap)
    (hbad : ¬ ∃ s, args = [PyVal.vstr s]) :
    (scanner_get_comments scanF allocOk args h).outcome = Outcome.typeError ∧
    (scanner_get_comments scanF allocOk args h).heap = h ∧
    (scanner_get_comments scanF allocOk args h).trace = [] := by
  have hp : pyArg_ParseTuple_s args = none := (parse_none_iff args).mpr hbad
  simp [scanner_get_comments, hp]

/-- Witness for C1 at the concrete argument tuple `(3,)`. -/
theorem c1_bad_args_no_scan_witness :
    (¬ ∃ s, [PyVal.vint 3] = [PyVal.vstr s]) ∧
    ((scanner_get_comments (fun _ xs => xs) true [PyVal.vint 3] ⟨[]⟩).outcome =
        Outcome.typeError ∧
      (scanner_get_comments (fun _ xs => xs) true [PyVal.vint 3] ⟨[]⟩).heap = ⟨[]⟩ ∧
      (scanner_get_comments (fun _ xs => xs) true [PyVal.vint 3] ⟨[]⟩).trace = []) :=
  ⟨by rintro ⟨s, hs⟩; simp at hs,
   c1_bad_args_no_scan (fun _ xs => xs) true [PyVal.vint 3] ⟨[]⟩
     (by rintro ⟨s, hs⟩; simp at hs)⟩

/-- C2: a call with exactly one string argument returns a list object —
some address holding a `listVal`, possibly with empty contents — never the
NULL of an error return and never a non-list value. -/
theorem c2_string_arg_returns_list (scanF : String → List String → List String)
    (s : String) (h : Heap) :
    ∃ a rc xs,
      (scanner_get_comments scanF true [PyVal.vstr s] h).outcome = Outcome.ok a ∧
      (scanner_get_comments scanF true [PyVal.vstr s] h).heap.lookup a =
        some ⟨rc, PyHeapVal.listVal xs⟩ := by
  refine ⟨h.data.length, 2, scanF s [], ?_, ?_⟩ <;> rw [scanner_success]
  exact getQ_append_self _ _

/-- C3: the list handed to `scan_filename` is freshly allocated — its
address is absent from the pre-call heap — and empty at the moment of
delegation; the object returned is that very list, and its final contents
are exactly `scanF` applied to the filename and the empty list: the adapter
adds, removes, filters, sorts and transforms nothing. -/
theorem c3_fresh_empty_untransformed (scanF : String → List String → List String)
    (s : String) (h : Heap) :
    ∃ a, h.lookup a = none ∧
      (scanner_get_comments scanF true [PyVal.vstr s] h).outcome = Outcome.ok a ∧
      (scanner_get_comments scanF true [PyVal.vstr s] h).trace =
        [Event.evAllocOk a, Event.evScan s (some a), Event.evIncref (some a)] ∧
      ∃ rc, (scanner_get_comments scanF true [PyVal.vstr s] h).heap.lookup a =
        some ⟨rc, PyHeapVal.listVal (scanF s [])⟩ := by
  refine ⟨h.data.length, getQ_length_none h.data, ?_, ?_, 2, ?_⟩ <;> rw [scanner_success]
  exact getQ_append_self _ _

/-- C4 is refuted by the code: at a concrete successful call the returned
list carries reference count 2 — the owned reference `PyList_New` produced
plus the one the superfluous `Py_INCREF` added — not the single reference
transferred to the caller that the claim asserts; the adapter leaks one
reference per call. -/
theorem c4_refcount_two :
    (scanner_get_comments (fun _ xs => xs ++ ["/* a */"]) true
        [PyVal.vstr "foo.c"] ⟨[]⟩).heap.lookup 0 =
      some ⟨2, PyHeapVal.listVal ["/* a */"]⟩ := by
  rfl

/-- C5: an error is signalled if and only if argument parsing fails, and
every one-string call raises nothing and completes the scan-and-return
path (under the successful-allocation precondition that C8 records). -/
theorem c5_error_iff_parse_failure (scanF : String → List String → List String)
    (args : List PyVal) (h : Heap) :
    ((scanner_get_comments scanF true args h).outcome = Outcome.typeError ↔
      pyArg_ParseTuple_s args = none) ∧
    ∀ s, (scanner_get_comments scanF true [PyVal.vstr s] h).outcome =
      Outcome.ok h.data.length := by
  constructor
  · cases hpe : pyArg_ParseTuple_s args with
    | none => simp [scanner_get_comments, hpe]
    | some f => simp [scanner_get_comments, hpe]
  · intro s
    rw [scanner_success]

/-- C6: the module registered at initialisation is named
`c_comment_scanner` and its method table exposes exactly one callable,
named `get_comments`, bound to `scanner_get_comments` under `METH_VARARGS`. -/
theorem c6_single_method :
    initc_comment_scanner.name = "c_comment_scanner" ∧
    exposedMethods initc_comment_scanner.methods =
      [⟨some "get_comments", some CFun.fnScannerGetComments, METH_VARARGS,
        some "Get comments from a filename."⟩] ∧
    applyCFun CFun.fnScannerGetComments = scanner_get_comments :=
  ⟨rfl, rfl, rfl⟩

/-- C7: frame property — every object present in the heap before the call
is unchanged after it, for every argument tuple, scan behaviour and
allocation outcome: the adapter mutates nothing but the freshly allocated
output list. -/
theorem c7_frame (scanF : String → List String → List String)
    (allocOk : Bool) (args : List PyVal) (h : Heap) (a : Nat)
    (ha : a < h.data.length) :
    (scanner_get_comments scanF allocOk args h).heap.lookup a = h.lookup a := by
  cases hpe : pyArg_ParseTuple_s args with
  | none => simp [scanner_get_comments, hpe]
  | some f =>
    cases allocOk with
    | false => simp [scanner_get_comments, hpe]
    | true =>
      rw [parse_some_eq args f hpe, scanner_success]
      exact getQ_append_lt h.data _ a ha

/-- Witness for C7: a pre-existing non-list object survives a call intact. -/
theorem c7_frame_witness :
    0 < (Heap.mk [⟨5, PyHeapVal.strVal "x"⟩]).data.length ∧
    (scanner_get_comments (fun _ xs => xs) true [PyVal.vstr "a.c"]
        ⟨[⟨5, PyHeapVal.strVal "x"⟩]⟩).heap.lookup 0 =
      (Heap.mk [⟨5, PyHeapVal.strVal "x"⟩]).lookup 0 :=
  ⟨by decide,
   c7_frame (fun _ xs => xs) true [PyVal.vstr "a.c"]
     ⟨[⟨5, PyHeapVal.strVal "x"⟩]⟩ 0 (by decide)⟩

/-- C8: nothing checks the result of `PyList_New`: when the allocation
succeeds the null branch is unreachable — the call never crashes — and when
it fails the NULL pointer flows unchecked into both `scan_filename` and
`Py_INCREF`, crashing the call. -/
theorem c8_alloc_unchecked (scanF : String → List String → List String)
    (s : String) (h : Heap) :
    (scanner_get_comments scanF true [PyVal.vstr s] h).outcome ≠ Outcome.nullDeref ∧
    (scanner_get_comments scanF false [PyVal.vstr s] h).outcome = Outcome.nullDeref ∧
    (scanner_get_comments scanF false [PyVal.vstr s] h).trace =
      [Event.evAllocFail, Event.evScan s none, Event.evIncref none] := by
  refine ⟨?_, rfl, rfl⟩
  rw [scanner_success]
  simp

/-- C9: `scan_filename` receives the caller's string verbatim — the scan
event of a one-string call carries exactly the string from the argument
tuple, with no normalisation, copy transformation or encoding change. -/
theorem c9_filename_verbatim (scanF : String → List String → List String)
    (s : String) (h : Heap) :
    ∃ a, (scanner_get_comments scanF true [PyVal.vstr s] h).trace =
      [Event.evAllocOk a, Event.evScan s (some a), Event.evIncref (some a)] := by
  refine ⟨h.data.length, ?_⟩
  rw [scanner_success]

/-- C10: determinism relative to the collaborator — with `scan_filename`
modelled as a function of the filename and the input contents, two calls
with equal filename arguments return equal comment lists, whatever heaps
they start from. -/
theorem c10_deterministic (scanF : String → List String → List String)
    (s : String) (h₁ h₂ : Heap) :
    returnedComments (scanner_get_comments scanF true [PyVal.vstr s] h₁) =
      returnedComments (scanner_get_comments scanF true [PyVal.vstr s] h₂) := by
  have key : ∀ h : Heap,
      returnedComments (scanner_get_comments scanF true [PyVal.vstr s] h) =
        some (scanF s []) := by
    intro h
    rw [scanner_success]
    have hl : Heap.lookup ⟨h.data ++ [⟨2, PyHeapVal.listVal (scanF s [])⟩]⟩
        h.data.length = some ⟨2, PyHeapVal.listVal (scanF s [])⟩ :=
      getQ_append_self _ _
    simp [returnedComments, hl]
  rw [key h₁, key h₂]

end CScanner
